import Mathlib

/-
Verification of the scripthost orchestrator (ScriptHost class, scripthost v1.x).

The development shallowly embeds the parts of ScriptHost that the verified
properties are about:

* the dependency-set and written-set computations performed on the `vars`
  map of an evaluation response (ScriptHost.eval / ScriptHost.#handleMessage);
* the per-evaluation invalidation machinery of ScriptHost.eval: the
  `invalidate` closure, the registered write observer, the optional refresh
  timer and the active-scope `invalidate` delegate;
* the correlation layer: the pending response-handler map manipulated by
  ScriptHost.#waitForResponse, the response branch of ScriptHost.#handleMessage,
  the per-request timeout timer, ScriptHost.#disposeSandbox, ScriptHost.dispose
  and ScriptHost.reset, together with the idle-change notifications;
* the post-after-register ordering of ScriptHost.#request and
  ScriptHost.#ensureInitialized;
* the request construction of ScriptHost.eval (the `track` flag);
* the function-call dispatcher ScriptHost.#handleFunctionCall.

JavaScript `number` version counters are modelled as `Int`; absent optional
fields as `none`; JS `Map` objects as association lists with unique keys;
promises as an explicit settlement state (a JS promise settles at most once,
so re-resolving / re-rejecting is a no-op).
-/

namespace Scripthost

/-- A script value exchanged with the sandbox (payloads are opaque to the
orchestrator, so a small concrete universe suffices). -/
inductive ScriptValue where
  | null
  | boolean (b : Bool)
  | number (n : Int)
  | str (s : String)
  deriving DecidableEq, Repr

/-- One entry of the `vars` map of an evaluation response: the optional read
version and the optional write version of a variable, as reported by the
sandbox (scripthost-core `TrackedVariable`). A field is `none` exactly when
the corresponding JS field is not a number. -/
structure TrackedVariable where
  read : Option Int
  write : Option Int
  deriving DecidableEq, Repr

/-- The dependency-set computation of ScriptHost.eval (lines 604-610):
a variable enters `dependencies` (mapped to its read version) exactly when
`typeof read === "number" && (typeof write !== "number" || read > write)`. -/
def computeDependencies (vars : List (String × TrackedVariable)) : List (String × Int) :=
  vars.filterMap fun p =>
    match p.2.read with
    | some r =>
      match p.2.write with
      | some w => if w < r then some (p.1, r) else none
      | none => some (p.1, r)
    | none => none

/-- The written-set computation of ScriptHost.#handleMessage (lines 851-856):
a variable enters `written` (mapped to its write version) exactly when
`typeof tracked.write === "number"`. -/
def computeWritten (vars : List (String × TrackedVariable)) : List (String × Int) :=
  vars.filterMap fun p =>
    match p.2.write with
    | some w => some (p.1, w)
    | none => none

/-- The options record accepted by ScriptHost.eval (ScriptEvalOptions); the
`onInvalidated` callback is modelled by its presence (it defaults to `null`
in the destructuring at the top of eval). -/
structure ScriptEvalOptions where
  timeout : Option Int
  idempotent : Option Bool
  instanceId : Option String
  vars : Option (List (String × ScriptValue))
  onInvalidated : Bool
  deriving DecidableEq, Repr

/-- The EvaluateScriptRequest record built by ScriptHost.eval (lines 542-553). -/
structure EvaluateScriptRequest where
  messageId : String
  script : String
  idempotent : Option Bool
  instanceId : Option String
  vars : Option (List (String × ScriptValue))
  track : Bool
  deriving DecidableEq, Repr

/-- Construction of the evaluation request by ScriptHost.eval: in particular
`track: onInvalidated !== null || !idempotent`, where `idempotent` is the
possibly-undefined option value (so `!idempotent` is true for both `undefined`
and `false`). -/
def buildEvalRequest (script : String) (options : ScriptEvalOptions)
    (mid : String) : EvaluateScriptRequest :=
  { messageId := mid
    script := script
    idempotent := options.idempotent
    instanceId := options.instanceId
    vars := options.vars
    track := options.onInvalidated || !(options.idempotent == some true) }

/-- Settlement state of a JS promise. A promise settles at most once: the
later of two resolve/reject calls is a no-op. -/
inductive PromiseState where
  | pending
  | resolved (value : ScriptValue)
  | rejected (message : String)
  deriving DecidableEq, Repr

/-- Whether a promise has settled. -/
def PromiseState.isSettled : PromiseState → Bool
  | .pending => false
  | .resolved _ => true
  | .rejected _ => true

/-- The rejection message used by the timeout timer armed in
ScriptHost.#waitForResponse. -/
def timeoutMessage : String := "Did not receive a response within the specified timeout"

/-- The ASCII single-quote character, used in the unexpected-response message. -/
def quoteMark : String := String.singleton (Char.ofNat 39)

/-- Classification of an inbound response by the handler installed in
ScriptHost.#waitForResponse: it matches the expected predicate, or it is an
error response, or it is of an unexpected type. -/
inductive ResponseKind where
  | expected (value : ScriptValue)
  | errorResponse (message : String)
  | unexpected (responseType requestType : String)
  deriving DecidableEq, Repr

/-- How the handler installed by ScriptHost.#waitForResponse settles the
request promise (lines 994-1000): resolve on a matching response, reject with
the carried message on an error response, reject with an unexpected-response
message otherwise. -/
def settlementOf : ResponseKind → PromiseState
  | .expected v => .resolved v
  | .errorResponse m => .rejected m
  | .unexpected rt qt => .rejected ("Received unexpected response " ++ quoteMark ++ rt
      ++ quoteMark ++ " to request " ++ quoteMark ++ qt ++ quoteMark)

/-- The mutable state of a ScriptHost instance, restricted to the fields the
verified properties are about. `pendingHandlers` holds the keys of the
`#responseHandlers` map; `promises` records the settlement state of the
promise created by each `#waitForResponse` call (the promise objects held by
callers, which outlive their map entries); `timers` holds the message ids
with an armed per-request timeout timer; `idleHandlers` holds the keys of
`#onIdleChangeHandlers`; `writeObservers` holds the keys of the
`#writeObservers` map. -/
structure HostState where
  factoryPresent : Bool
  sandboxPresent : Bool
  initPromisePresent : Bool
  initializedFlag : Bool
  msgCounter : Nat
  pendingHandlers : List String
  promises : List (String × PromiseState)
  timers : List String
  idleHandlers : List Nat
  writeObservers : List String
  lastPing : Option Nat
  deriving DecidableEq, Repr

/-- ScriptHost.isIdle: `this.#responseHandlers.size === 0`. -/
def isIdle (s : HostState) : Bool := s.pendingHandlers.isEmpty

/-- ScriptHost.isInitialized: the `#isInitialized` backing field. -/
def isInitialized (s : HostState) : Bool := s.initializedFlag

/-- ScriptHost.isDisposed: `this.#factory === null`. -/
def isDisposed (s : HostState) : Bool := !s.factoryPresent

/-- ScriptHost.#notifyIdle: invokes every registered idle-change handler once
with the given value; the result is the list of deliveries performed. -/
def notifyIdle (s : HostState) (value : Bool) : List (Nat × Bool) :=
  s.idleHandlers.map fun h => (h, value)

/-- Key insertion with JS `Map.set` semantics on the key set: setting an
existing key does not grow the map. -/
def insertKey (l : List String) (k : String) : List String :=
  if k ∈ l then l else l ++ [k]

/-- Settling the promise associated with a message id: resolve/reject on an
already-settled promise is a no-op. -/
def settlePromise (ps : List (String × PromiseState)) (mid : String)
    (st : PromiseState) : List (String × PromiseState) :=
  ps.map fun p => if p.1 = mid ∧ p.2 = PromiseState.pending then (p.1, st) else p

/-- ScriptHost.#waitForResponse (lines 978-1007): arms a timeout timer when
`timeout > 0`, installs the response handler under the request's message id,
and notifies busy (value `false`) when the map size just became 1. Returns
the new state together with the idle-change deliveries performed. -/
def waitForResponseStep (s : HostState) (mid : String) (hasTimeout : Bool) :
    HostState × List (Nat × Bool) :=
  let pending := insertKey s.pendingHandlers mid
  let s' := { s with
    pendingHandlers := pending
    promises := s.promises ++ [(mid, PromiseState.pending)]
    timers := if hasTimeout then insertKey s.timers mid else s.timers }
  (s', if pending.length = 1 then notifyIdle s false else [])

/-- The response branch of ScriptHost.#handleMessage (lines 837-866): when a
handler is registered for `inResponseTo`, the handler runs (clearing the
timeout timer and settling the promise per `settlementOf`), the entry is
deleted, and idle (value `true`) is notified when the map became empty.
When no handler is registered, nothing changes. -/
def handleResponseStep (s : HostState) (mid : String) (kind : ResponseKind) :
    HostState × List (Nat × Bool) :=
  if mid ∈ s.pendingHandlers then
    let pending := s.pendingHandlers.erase mid
    let s' := { s with
      pendingHandlers := pending
      promises := settlePromise s.promises mid (settlementOf kind)
      timers := s.timers.erase mid }
    (s', if pending.isEmpty then notifyIdle s true else [])
  else (s, [])

/-- The timeout timer callback armed in ScriptHost.#waitForResponse (lines
984-987): it only rejects the promise with `timeoutMessage`; it does not
touch the `#responseHandlers` map. -/
def fireTimeoutStep (s : HostState) (mid : String) : HostState :=
  if mid ∈ s.timers then
    { s with
      timers := s.timers.erase mid
      promises := settlePromise s.promises mid (PromiseState.rejected timeoutMessage) }
  else s

/-- ScriptHost.#disposeSandbox (lines 791-815): detaches and disposes the
sandbox, clears the ping timer, clears the pending response handlers and
notifies idle (value `true`) when any were present, and clears the write
observers, the init promise and the last-ping timestamp. Pending promises
are not settled and per-request timeout timers are not cleared. -/
def disposeSandbox (s : HostState) : HostState × List (Nat × Bool) :=
  let notifs := if s.pendingHandlers.isEmpty then [] else notifyIdle s true
  ({ s with
    sandboxPresent := false
    pendingHandlers := []
    writeObservers := []
    initPromisePresent := false
    lastPing := none }, notifs)

/-- ScriptHost.dispose (lines 521-525): disposes the sandbox, drops the
factory and clears the initialized flag. -/
def dispose (s : HostState) : HostState × List (Nat × Bool) :=
  let r := disposeSandbox s
  ({ r.1 with factoryPresent := false, initializedFlag := false }, r.2)

/-- ScriptHost.reset (lines 707-711): throws when disposed, otherwise
disposes the sandbox (and nothing else). -/
def reset (s : HostState) : Except String (HostState × List (Nat × Bool)) :=
  if s.factoryPresent then Except.ok (disposeSandbox s)
  else Except.error "Script host is disposed"

/-- The per-evaluation invalidation state of ScriptHost.eval (lines 555-632):
the `invalidated` flag, the number of times the caller's onInvalidated
callback has been invoked, whether the optional refresh timer is armed, and
whether this evaluation's write observer is registered in `#writeObservers`
under the evaluation's message id. The machinery exists only when the caller
supplied an onInvalidated callback. -/
structure EvalState where
  invalidated : Bool
  firedCount : Nat
  refreshTimer : Bool
  observerRegistered : Bool
  deriving DecidableEq, Repr

/-- The `invalidate` closure of ScriptHost.eval (lines 559-581): invokes
onInvalidated once (guarded by the `invalidated` flag), cancels any pending
refresh timer, and removes this evaluation's write observer from
`#writeObservers`. -/
def invalidateRun (s : EvalState) : EvalState :=
  { invalidated := true
    firedCount := if s.invalidated then s.firedCount else s.firedCount + 1
    refreshTimer := false
    observerRegistered := false }

/-- The firing condition of the write observer registered by ScriptHost.eval
(lines 613-622): some dependency has a written version strictly greater than
the version read by this evaluation. -/
def conflictWith (deps written : List (String × Int)) : Bool :=
  deps.any fun p =>
    match List.lookup p.1 written with
    | some w => decide (p.2 < w)
    | none => false

/-- One call of ScriptHost.#handleWrittenVariables (lines 878-895) as seen by
a single evaluation's observer: the observer is invoked only while it is
registered; it calls `invalidate` when some dependency conflicts; it returns
the `invalidated` flag, and `#handleWrittenVariables` removes the observer
from the map when the returned value is true. -/
def handleWrittenVariables (deps written : List (String × Int)) (s : EvalState) : EvalState :=
  if s.observerRegistered then
    let s' := if conflictWith deps written then invalidateRun s else s
    if s'.invalidated then { s' with observerRegistered := false } else s'
  else s

/-- The asynchronous events that can reach one evaluation's invalidation
state after its response has been processed: a later evaluation or error
response carrying a vars map (whose written set is computed by
`#handleMessage`), a written-variables report carried by a function-call or
yield request, the refresh timer firing, and a call of the active scope's
`invalidate` (which is a no-op while `active` is still true). -/
inductive EvalEvent where
  | responseWritten (vars : List (String × TrackedVariable))
  | writtenReport (written : List (String × Int))
  | refreshFired
  | scopeInvalidate (active : Bool)
  deriving DecidableEq, Repr

/-- Effect of one event on one evaluation's invalidation state. -/
def evalStep (deps : List (String × Int)) (s : EvalState) : EvalEvent → EvalState
  | .responseWritten vars => handleWrittenVariables deps (computeWritten vars) s
  | .writtenReport w => handleWrittenVariables deps w s
  | .refreshFired => if s.refreshTimer then invalidateRun s else s
  | .scopeInvalidate active => if active then s else invalidateRun s

/-- Folding an event trace over an evaluation's invalidation state. -/
def runEval (deps : List (String × Int)) (s : EvalState) (events : List EvalEvent) : EvalState :=
  events.foldl (evalStep deps) s

/-- Actions performed by ScriptHost.#request and ScriptHost.#ensureInitialized,
in program order: installing a response handler, delivering an idle-change
notification, creating the sandbox via the factory, posting a message to the
sandbox, and awaiting the shared init promise. -/
inductive HostAction where
  | registerHandler (mid : String)
  | notify (idle : Bool)
  | createSandbox
  | post (mid : String)
  | awaitInit
  deriving DecidableEq, Repr

/-- ScriptHost.#nextMessageId: increments the counter and appends it to the
per-instance prefix. -/
def nextMessageId (pfx : String) (s : HostState) : String × HostState :=
  (pfx ++ toString (s.msgCounter + 1), { s with msgCounter := s.msgCounter + 1 })

/-- ScriptHost.#ensureInitialized (lines 745-770): throws when disposed;
lazily creates the sandbox; when no init promise exists, generates the init
request, installs its response handler (`#waitForResponse`) and only then
posts the init request; finally awaits the init promise and marks the host
initialized. Returns the actions in program order. -/
def ensureInitializedRun (pfx : String) (initTimeoutPos : Bool) (s : HostState) :
    Except String (HostState × List HostAction) :=
  if s.factoryPresent then
    let r1 : HostState × List HostAction :=
      if s.sandboxPresent then (s, [])
      else ({ s with sandboxPresent := true }, [HostAction.createSandbox])
    let r2 : HostState × List HostAction :=
      if r1.1.initPromisePresent then (r1.1, [])
      else
        let m := nextMessageId pfx r1.1
        let w := waitForResponseStep { m.2 with initPromisePresent := true } m.1 initTimeoutPos
        (w.1, (HostAction.registerHandler m.1 :: w.2.map fun p => HostAction.notify p.2)
          ++ [HostAction.post m.1])
    Except.ok ({ r2.1 with initializedFlag := true },
      r1.2 ++ r2.2 ++ [HostAction.awaitInit])
  else Except.error "Script host is disposed"

/-- ScriptHost.#request (lines 734-743): installs the pending response
handler for the request's message id first, then ensures initialization, and
only then posts the request message to the sandbox. Returns the actions in
program order. -/
def requestRun (pfx : String) (initTimeoutPos : Bool) (s : HostState) (mid : String)
    (timeoutPos : Bool) : Except String (HostState × List HostAction) :=
  let w := waitForResponseStep s mid timeoutPos
  let a1 := HostAction.registerHandler mid :: w.2.map fun p => HostAction.notify p.2
  match ensureInitializedRun pfx initTimeoutPos w.1 with
  | Except.error e => Except.error e
  | Except.ok r => Except.ok (r.1, a1 ++ r.2 ++ [HostAction.post mid])

/-- A function-call request received from the sandbox (scripthost-core
FunctionCallRequest): the correlation id names the evaluation on whose
behalf the call is made; `written` optionally reports variable writes. -/
structure FunctionCallRequest where
  messageId : String
  correlationId : String
  key : String
  idempotent : Bool
  args : List ScriptValue
  written : Option (List (String × Int))
  deriving DecidableEq, Repr

/-- Behaviour of an exposed host function on a given call: it either returns
a value or throws a failure whose string conversion is the given message. -/
inductive FuncBehavior where
  | returns (value : ScriptValue)
  | throws (message : String)
  deriving DecidableEq, Repr

/-- A message posted back to the sandbox by the function-call dispatcher:
either a FunctionCallResponse (`type: "return"`) or an ErrorResponse
(`type: "error"`). -/
inductive PostedMessage where
  | returnResponse (messageId inResponseTo : String) (result : ScriptValue)
  | errorResponse (messageId inResponseTo : String) (message : String)
  deriving DecidableEq, Repr

/-- The `inResponseTo` field of a posted response message. -/
def PostedMessage.inResponseTo : PostedMessage → String
  | .returnResponse _ r _ => r
  | .errorResponse _ r _ => r

/-- ScriptHost.#handleFunctionCall (lines 897-955): returns without posting
when no sandbox is attached; otherwise posts exactly one response carrying
`inResponseTo: request.messageId`: an error naming the key when no exposed
function has that key, an error when no active scope exists for the
request's correlation id, and otherwise the function's result or an error
converted from its thrown failure. (The written-variables report feeds the
write observers, modelled by `handleWrittenVariables`, and does not affect
the posted response.) Returns the posted messages and the new message-id
counter. -/
def handleFunctionCall (sandboxAttached : Bool) (funcs : String → Option FuncBehavior)
    (activeScopes : List String) (pfx : String) (ctr : Nat)
    (req : FunctionCallRequest) : List PostedMessage × Nat :=
  if sandboxAttached then
    match funcs req.key with
    | none =>
      ([PostedMessage.errorResponse (pfx ++ toString (ctr + 1)) req.messageId
          ("Cannot call undefined function: " ++ req.key)], ctr + 1)
    | some b =>
      if req.correlationId ∈ activeScopes then
        match b with
        | .returns v =>
          ([PostedMessage.returnResponse (pfx ++ toString (ctr + 1)) req.messageId v], ctr + 1)
        | .throws m =>
          ([PostedMessage.errorResponse (pfx ++ toString (ctr + 1)) req.messageId m], ctr + 1)
      else
        ([PostedMessage.errorResponse (pfx ++ toString (ctr + 1)) req.messageId
            "Cannot call function from an inactive script"], ctr + 1)
  else ([], ctr)

/-- A freshly initialized idle host with one registered idle-change handler
(key 3): used to instantiate the universally quantified theorems. -/
def sampleHost : HostState :=
  { factoryPresent := true
    sandboxPresent := true
    initPromisePresent := true
    initializedFlag := true
    msgCounter := 1
    pendingHandlers := []
    promises := []
    timers := []
    idleHandlers := [3]
    writeObservers := []
    lastPing := none }

/-- A host with one outstanding request ("host-1", with an armed timeout) and
one registered idle-change handler (key 7): used to instantiate the
universally quantified theorems. -/
def sampleBusy : HostState :=
  { factoryPresent := true
    sandboxPresent := true
    initPromisePresent := true
    initializedFlag := true
    msgCounter := 1
    pendingHandlers := ["host-1"]
    promises := [("host-1", PromiseState.pending)]
    timers := ["host-1"]
    idleHandlers := [7]
    writeObservers := []
    lastPing := none }

/-- An exposed-function table with a single function "bar": used to
instantiate the universally quantified theorems. -/
def sampleFuncs : String → Option FuncBehavior := fun k =>
  if k = "bar" then some (FuncBehavior.returns ScriptValue.null) else none

/-- A function-call request for the unexposed key "foo": used to instantiate
the universally quantified theorems. -/
def sampleCallReq : FunctionCallRequest :=
  { messageId := "m1"
    correlationId := "c1"
    key := "foo"
    idempotent := true
    args := []
    written := none }

/-- The invariant maintained by the invalidation machinery of one
evaluation: the onInvalidated callback has been invoked at most once, and
not at all while the `invalidated` flag is still false. -/
def firedInv (s : EvalState) : Prop :=
  (s.invalidated = false → s.firedCount = 0) ∧ s.firedCount ≤ 1

theorem lookup_settlePromise (ps : List (String × PromiseState)) (mid : String)
    (st : PromiseState) (h : List.lookup mid ps = some PromiseState.pending) :
    List.lookup mid (settlePromise ps mid st) = some st := by
  induction ps with
  | nil => simp at h
  | cons hd tl ih =>
    rcases hd with ⟨k, v⟩
    by_cases hk : mid = k
    · subst hk
      rw [List.lookup_cons_self] at h
      injection h with h
      subst h
      rw [settlePromise, List.map_cons, if_pos (And.intro rfl rfl)]
      exact List.lookup_cons_self
    · have hbeq : (mid == k) = false := beq_false_of_ne hk
      rw [List.lookup, hbeq] at h
      have htl := ih h
      by_cases hcond : k = mid ∧ v = PromiseState.pending
      · exact absurd hcond.1.symm hk
      · rw [settlePromise, List.map_cons, if_neg hcond, List.lookup, hbeq]
        rw [settlePromise] at htl
        exact htl

/-- C5: at every point, isIdle returns true if and only if the
pending-response map is empty, and each map-mutating operation notifies the
registered idle-change handlers exactly when the pending count crosses the
0-to-1 boundary (with value false, in #waitForResponse) or drops to 0 (with
value true, in #handleMessage), never when the count changes without
crossing zero; the timeout timer never changes the map. -/
theorem idle_transitions_c5 (s : HostState) (mid : String) (hasT : Bool)
    (kind : ResponseKind) :
    (isIdle s = true ↔ s.pendingHandlers = [])
    ∧ (mid ∉ s.pendingHandlers →
        (waitForResponseStep s mid hasT).2 =
          if s.pendingHandlers = [] then notifyIdle s false else [])
    ∧ ((handleResponseStep s mid kind).2 =
        if mid ∈ s.pendingHandlers ∧ s.pendingHandlers.erase mid = []
        then notifyIdle s true else [])
    ∧ (fireTimeoutStep s mid).pendingHandlers = s.pendingHandlers := by
  refine ⟨?_, ?_, ?_, ?_⟩
  · simp [isIdle, List.isEmpty_iff]
  · intro h
    simp only [waitForResponseStep, insertKey, if_neg h]
    cases hp : s.pendingHandlers with
    | nil => simp
    | cons a t => simp
  · by_cases hm : mid ∈ s.pendingHandlers
    · by_cases he : s.pendingHandlers.erase mid = []
      · simp [handleResponseStep, hm, he]
      · simp [handleResponseStep, hm, he, List.isEmpty_iff]
    · simp [handleResponseStep, hm]
  · rw [fireTimeoutStep]
    split <;> rfl

theorem idle_transitions_c5_witness :
    (isIdle sampleHost = true ↔ sampleHost.pendingHandlers = [])
    ∧ ((waitForResponseStep sampleHost "host-2" true).2 =
        if sampleHost.pendingHandlers = [] then notifyIdle sampleHost false else [])
    ∧ ((handleResponseStep sampleHost "host-2" (ResponseKind.expected ScriptValue.null)).2 =
        if "host-2" ∈ sampleHost.pendingHandlers
            ∧ sampleHost.pendingHandlers.erase "host-2" = []
        then notifyIdle sampleHost true else [])
    ∧ (fireTimeoutStep sampleHost "host-2").pendingHandlers = sampleHost.pendingHandlers := by
  have h := idle_transitions_c5 sampleHost "host-2" true (ResponseKind.expected ScriptValue.null)
  exact ⟨h.1, h.2.1 (by decide), h.2.2.1, h.2.2.2⟩

/-- C3 (counterexample to the claim as stated): after registering request
"host-1" with a positive timeout against a sandbox that never responds, the
timeout fires and rejects the promise with the timeout message, yet the
pending entry for "host-1" is still in the pending-response map: the timer
callback in #waitForResponse never deletes the entry. -/
theorem timeout_entry_not_removed_c3_cex :
    List.lookup "host-1"
        (fireTimeoutStep (waitForResponseStep sampleHost "host-1" true).1 "host-1").promises
      = some (PromiseState.rejected timeoutMessage)
    ∧ "host-1" ∈
        (fireTimeoutStep (waitForResponseStep sampleHost "host-1" true).1 "host-1").pendingHandlers := by
  decide

/-- C3 (amended): for every request registered with a positive timeout whose
promise is still pending, the timeout firing rejects the promise with the
failure message "Did not receive a response within the specified timeout",
but the pending entry for the request's messageId is NOT removed from the
pending-response map when the timeout fires (it is removed only by a later
matching response or by sandbox disposal). -/
theorem timeout_rejects_entry_remains_c3 (s : HostState) (mid : String)
    (harm : mid ∈ s.timers)
    (hpend : List.lookup mid s.promises = some PromiseState.pending) :
    List.lookup mid (fireTimeoutStep s mid).promises
        = some (PromiseState.rejected timeoutMessage)
    ∧ (fireTimeoutStep s mid).pendingHandlers = s.pendingHandlers := by
  rw [fireTimeoutStep, if_pos harm]
  exact ⟨lookup_settlePromise s.promises mid _ hpend, rfl⟩

theorem timeout_rejects_entry_remains_c3_witness :
    List.lookup "host-1" (fireTimeoutStep sampleBusy "host-1").promises
        = some (PromiseState.rejected timeoutMessage)
    ∧ (fireTimeoutStep sampleBusy "host-1").pendingHandlers = sampleBusy.pendingHandlers := by
  exact timeout_rejects_entry_remains_c3 sampleBusy "host-1" (by decide) (by decide)

/-- C4 (counterexample to the claim as stated): disposing a host with one
outstanding request delivers the idle-change notification, but the pending
request's promise is still pending (unsettled) after dispose(): neither
#disposeSandbox nor dispose() resolves or rejects pending promises. -/
theorem dispose_leaves_promise_pending_c4_cex :
    (dispose sampleBusy).1.promises = [("host-1", PromiseState.pending)]
    ∧ PromiseState.isSettled PromiseState.pending = false
    ∧ (dispose sampleBusy).2 = [(7, true)] := by
  decide

/-- C4 (amended): when dispose() is called while at least one request is
pending, exactly one idle-change notification with value true is delivered
to each registered idle-change handler and the pending-response map is
cleared, but the pending requests' promises are NOT settled by disposal
(they keep their previous settlement state; only a still-armed per-request
timeout can later reject them); when no requests are pending, dispose()
delivers no idle-change notification. -/
theorem dispose_idle_notification_c4 (s : HostState) (hnd : s.idleHandlers.Nodup) :
    ((dispose s).2 = if s.pendingHandlers = [] then [] else notifyIdle s true)
    ∧ (s.pendingHandlers ≠ [] →
        ∀ h ∈ s.idleHandlers,
          (((dispose s).2.map Prod.fst).count h = 1
            ∧ ∀ p ∈ (dispose s).2, p.2 = true))
    ∧ (dispose s).1.pendingHandlers = []
    ∧ (dispose s).1.promises = s.promises := by
  refine ⟨?_, ?_, rfl, rfl⟩
  · by_cases hp : s.pendingHandlers = [] <;>
      simp [dispose, disposeSandbox, hp, List.isEmpty_iff]
  · intro hne h hm
    have h2 : (dispose s).2 = notifyIdle s true := by
      simp [dispose, disposeSandbox, List.isEmpty_iff, hne]
    rw [h2, notifyIdle]
    constructor
    · rw [List.map_map]
      have : (Prod.fst ∘ fun h => (h, true)) = (id : Nat → Nat) := rfl
      rw [this, List.map_id]
      exact List.count_eq_one_of_mem hnd hm
    · intro p hp
      rw [List.mem_map] at hp
      obtain ⟨a, _, ha⟩ := hp
      rw [← ha]

theorem dispose_idle_notification_c4_witness :
    ((dispose sampleBusy).2 =
      if sampleBusy.pendingHandlers = [] then [] else notifyIdle sampleBusy true)
    ∧ (((dispose sampleBusy).2.map Prod.fst).count 7 = 1
        ∧ ∀ p ∈ (dispose sampleBusy).2, p.2 = true)
    ∧ (dispose sampleBusy).1.pendingHandlers = []
    ∧ (dispose sampleBusy).1.promises = sampleBusy.promises := by
  have h := dispose_idle_notification_c4 sampleBusy (by decide)
  exact ⟨h.1, h.2.1 (by decide) 7 (by decide), h.2.2.1, h.2.2.2⟩

/-- C10: after reset() on an initialized, non-disposed host, isInitialized
still returns true even though the sandbox, init promise, pending handlers
and write observers have all been cleared; reset() never changes
isInitialized, and only dispose() makes it false again. -/
theorem reset_preserves_initialized_c10 (s : HostState)
    (hfac : s.factoryPresent = true) (hinit : s.initializedFlag = true) :
    (∃ r, reset s = Except.ok r
      ∧ isInitialized r.1 = true
      ∧ r.1.sandboxPresent = false
      ∧ r.1.initPromisePresent = false
      ∧ r.1.pendingHandlers = []
      ∧ r.1.writeObservers = [])
    ∧ (∀ t : HostState, ∀ r, reset t = Except.ok r →
        isInitialized r.1 = isInitialized t)
    ∧ isInitialized (dispose s).1 = false := by
  refine ⟨⟨disposeSandbox s, ?_, ?_, rfl, rfl, rfl, rfl⟩, ?_, rfl⟩
  · rw [reset, if_pos hfac]
  · simpa [isInitialized, disposeSandbox] using hinit
  · intro t r h
    rw [reset] at h
    by_cases hf : t.factoryPresent = true
    · rw [if_pos hf] at h
      injection h with h
      subst h
      rfl
    · rw [if_neg hf] at h
      exact absurd h (by simp)

theorem reset_preserves_initialized_c10_witness :
    (∃ r, reset sampleBusy = Except.ok r
      ∧ isInitialized r.1 = true
      ∧ r.1.sandboxPresent = false
      ∧ r.1.initPromisePresent = false
      ∧ r.1.pendingHandlers = []
      ∧ r.1.writeObservers = [])
    ∧ (∀ t : HostState, ∀ r, reset t = Except.ok r →
        isInitialized r.1 = isInitialized t)
    ∧ isInitialized (dispose sampleBusy).1 = false :=
  reset_preserves_initialized_c10 sampleBusy (by decide) (by decide)

theorem firedInv_invalidateRun (s : EvalState) (h : firedInv s) :
    firedInv (invalidateRun s) := by
  refine ⟨fun hc => by simp [invalidateRun] at hc, ?_⟩
  rw [invalidateRun]
  cases hi : s.invalidated with
  | true => simpa using h.2
  | false => simpa using h.1 hi

theorem handleWritten_not_registered (deps written : List (String × Int)) (s : EvalState)
    (hobs : ¬s.observerRegistered = true) :
    handleWrittenVariables deps written s = s := by
  rw [handleWrittenVariables, if_neg hobs]

theorem handleWritten_conflict (deps written : List (String × Int)) (s : EvalState)
    (hobs : s.observerRegistered = true) (hc : conflictWith deps written = true) :
    handleWrittenVariables deps written s
      = { invalidateRun s with observerRegistered := false } := by
  simp [handleWrittenVariables, hobs, hc, invalidateRun]

theorem handleWritten_no_conflict (deps written : List (String × Int)) (s : EvalState)
    (hobs : s.observerRegistered = true) (hc : ¬conflictWith deps written = true) :
    handleWrittenVariables deps written s
      = if s.invalidated = true then { s with observerRegistered := false } else s := by
  simp [handleWrittenVariables, hobs, hc]

theorem firedInv_handleWritten (deps written : List (String × Int)) (s : EvalState)
    (h : firedInv s) : firedInv (handleWrittenVariables deps written s) := by
  by_cases hobs : s.observerRegistered = true
  · by_cases hc : conflictWith deps written = true
    · rw [handleWritten_conflict deps written s hobs hc]
      exact firedInv_invalidateRun s h
    · rw [handleWritten_no_conflict deps written s hobs hc]
      split
      · exact h
      · exact h
  · rw [handleWritten_not_registered deps written s hobs]
    exact h

theorem firedInv_evalStep (deps : List (String × Int)) (s : EvalState) (e : EvalEvent)
    (h : firedInv s) : firedInv (evalStep deps s e) := by
  cases e with
  | responseWritten vars => exact firedInv_handleWritten deps (computeWritten vars) s h
  | writtenReport w => exact firedInv_handleWritten deps w s h
  | refreshFired =>
    rw [evalStep]
    split
    · exact firedInv_invalidateRun s h
    · exact h
  | scopeInvalidate active =>
    rw [evalStep]
    split
    · exact h
    · exact firedInv_invalidateRun s h

theorem firedInv_runEval (deps : List (String × Int)) (events : List EvalEvent) :
    ∀ s : EvalState, firedInv s → firedInv (runEval deps s events) := by
  induction events with
  | nil => exact fun s h => h
  | cons e t ih =>
    intro s h
    exact ih (evalStep deps s e) (firedInv_evalStep deps s e h)

/-- C1: for every eval performed with an onInvalidated callback, the callback
is invoked at most once along any trace of later events (written-variable
reports, refresh-timer firings, scope invalidations); and a write-observer
call changes the invocation count only when the report carries, for some
variable of the evaluation's dependency set, a write version strictly
greater than the version the evaluation read — in which case the observer is
removed from the observer map and the pending refresh timer is cancelled. -/
theorem invalidation_observer_c1 (deps : List (String × Int)) (rt og : Bool)
    (events : List EvalEvent) :
    (runEval deps ⟨false, 0, rt, og⟩ events).firedCount ≤ 1
    ∧ ∀ (s : EvalState) (written : List (String × Int)),
        (handleWrittenVariables deps written s).firedCount ≠ s.firedCount →
          ((∃ p ∈ deps, ∃ w, List.lookup p.1 written = some w ∧ p.2 < w)
            ∧ (handleWrittenVariables deps written s).observerRegistered = false
            ∧ (handleWrittenVariables deps written s).refreshTimer = false) := by
  constructor
  · exact (firedInv_runEval deps events ⟨false, 0, rt, og⟩ ⟨fun _ => rfl, by simp⟩).2
  · intro s written hne
    by_cases hobs : s.observerRegistered = true
    · by_cases hc : conflictWith deps written = true
      · refine ⟨?_, ?_, ?_⟩
        · rcases List.any_eq_true.mp hc with ⟨p, hp, hcond⟩
          cases hl : List.lookup p.1 written with
          | none => rw [hl] at hcond; exact absurd hcond (by simp)
          | some w =>
            rw [hl] at hcond
            exact ⟨p, hp, w, hl, of_decide_eq_true hcond⟩
        · rw [handleWritten_conflict deps written s hobs hc]
        · rw [handleWritten_conflict deps written s hobs hc]
          rfl
      · exfalso
        apply hne
        rw [handleWritten_no_conflict deps written s hobs hc]
        split
        · rfl
        · rfl
    · exact absurd (by rw [handleWritten_not_registered deps written s hobs]) hne

theorem invalidation_observer_c1_witness :
    (runEval [("x", (1 : Int))] ⟨false, 0, false, true⟩
        [EvalEvent.writtenReport [("x", (2 : Int))]]).firedCount ≤ 1
    ∧ ((∃ p ∈ [("x", (1 : Int))], ∃ w,
          List.lookup p.1 [("x", (2 : Int))] = some w ∧ p.2 < w)
        ∧ (handleWrittenVariables [("x", (1 : Int))] [("x", (2 : Int))]
            ⟨false, 0, false, true⟩).observerRegistered = false
        ∧ (handleWrittenVariables [("x", (1 : Int))] [("x", (2 : Int))]
            ⟨false, 0, false, true⟩).refreshTimer = false) := by
  have h := invalidation_observer_c1 [("x", (1 : Int))] false true
      [EvalEvent.writtenReport [("x", (2 : Int))]]
  exact ⟨h.1, h.2 ⟨false, 0, false, true⟩ [("x", (2 : Int))] (by decide)⟩

/-- C9: for an evaluation with an onInvalidated callback, calling
invalidate() on the evaluation's active scope while the evaluation's request
is still outstanding (`active` still true) leaves the invalidation state
unchanged and does not invoke onInvalidated; once the response has settled
(`active` false), it delegates to the evaluation's `invalidate` closure. -/
theorem scope_invalidate_c9 (deps : List (String × Int)) (s : EvalState) :
    evalStep deps s (EvalEvent.scopeInvalidate true) = s
    ∧ (evalStep deps s (EvalEvent.scopeInvalidate true)).firedCount = s.firedCount
    ∧ evalStep deps s (EvalEvent.scopeInvalidate false) = invalidateRun s :=
  ⟨rfl, rfl, rfl⟩

/-- C8: for every request issued through the correlation layer, the pending
response handler for the request's messageId is registered before the
request message is posted to the sandbox: in the action trace of #request,
the registerHandler action comes first and the request's post action last. -/
theorem register_before_post_c8 (pfx : String) (itp : Bool) (s : HostState)
    (mid : String) (tp : Bool) (s' : HostState) (acts : List HostAction)
    (h : requestRun pfx itp s mid tp = Except.ok (s', acts)) :
    ∃ middle, acts = HostAction.registerHandler mid :: (middle ++ [HostAction.post mid]) := by
  rw [requestRun] at h
  cases he : ensureInitializedRun pfx itp (waitForResponseStep s mid tp).1 with
  | error e =>
    rw [he] at h
    exact absurd h (by simp)
  | ok r =>
    rw [he] at h
    simp only [Except.ok.injEq, Prod.mk.injEq] at h
    refine ⟨(waitForResponseStep s mid tp).2.map (fun p => HostAction.notify p.2) ++ r.2, ?_⟩
    rw [← h.2]
    simp

theorem register_before_post_c8_witness :
    ∃ middle,
      [HostAction.registerHandler "host-2", HostAction.notify false,
        HostAction.awaitInit, HostAction.post "host-2"]
      = HostAction.registerHandler "host-2" :: (middle ++ [HostAction.post "host-2"]) :=
  register_before_post_c8 "h-" true sampleHost "host-2" true
    ⟨true, true, true, true, 1, ["host-2"], [("host-2", PromiseState.pending)],
      ["host-2"], [3], [], none⟩
    [HostAction.registerHandler "host-2", HostAction.notify false,
      HostAction.awaitInit, HostAction.post "host-2"]
    (by rfl)

/-- C7: for every function-call request received while a sandbox is
attached, exactly one response is posted back, carrying inResponseTo equal
to the request's messageId: an error naming the requested key when no
exposed function has that key, an error when no active scope exists for the
request's correlationId, and otherwise either the function's result or an
error converted from its thrown failure. -/
theorem function_call_response_c7 (funcs : String → Option FuncBehavior)
    (scopes : List String) (pfx : String) (ctr : Nat) (req : FunctionCallRequest) :
    (handleFunctionCall true funcs scopes pfx ctr req).1.length = 1
    ∧ (∀ m ∈ (handleFunctionCall true funcs scopes pfx ctr req).1,
        PostedMessage.inResponseTo m = req.messageId)
    ∧ (funcs req.key = none →
        (handleFunctionCall true funcs scopes pfx ctr req).1
          = [PostedMessage.errorResponse (pfx ++ toString (ctr + 1)) req.messageId
              ("Cannot call undefined function: " ++ req.key)])
    ∧ (∀ b, funcs req.key = some b → req.correlationId ∉ scopes →
        (handleFunctionCall true funcs scopes pfx ctr req).1
          = [PostedMessage.errorResponse (pfx ++ toString (ctr + 1)) req.messageId
              "Cannot call function from an inactive script"])
    ∧ (∀ v, funcs req.key = some (FuncBehavior.returns v) → req.correlationId ∈ scopes →
        (handleFunctionCall true funcs scopes pfx ctr req).1
          = [PostedMessage.returnResponse (pfx ++ toString (ctr + 1)) req.messageId v])
    ∧ (∀ msg, funcs req.key = some (FuncBehavior.throws msg) → req.correlationId ∈ scopes →
        (handleFunctionCall true funcs scopes pfx ctr req).1
          = [PostedMessage.errorResponse (pfx ++ toString (ctr + 1)) req.messageId msg]) := by
  cases hf : funcs req.key with
  | none => simp [handleFunctionCall, hf, PostedMessage.inResponseTo]
  | some b =>
    by_cases hs : req.correlationId ∈ scopes <;>
      cases b <;>
        simp [handleFunctionCall, hf, hs, PostedMessage.inResponseTo]

theorem function_call_response_c7_witness :
    (handleFunctionCall true sampleFuncs ["c1"] "h-" 5 sampleCallReq).1.length = 1
    ∧ (∀ m ∈ (handleFunctionCall true sampleFuncs ["c1"] "h-" 5 sampleCallReq).1,
        PostedMessage.inResponseTo m = sampleCallReq.messageId)
    ∧ (handleFunctionCall true sampleFuncs ["c1"] "h-" 5 sampleCallReq).1
        = [PostedMessage.errorResponse ("h-" ++ toString 6) "m1"
            ("Cannot call undefined function: " ++ "foo")] := by
  have h := function_call_response_c7 sampleFuncs ["c1"] "h-" 5 sampleCallReq
  exact ⟨h.1, h.2.1, h.2.2.1 (by decide)⟩

/-- C2: for every evaluation response carrying a vars map, the dependency
set computed by eval contains exactly those variables whose read version is
a number and whose write version in the same response is absent (not a
number) or strictly less than the read version, each mapped to its read
version. -/
theorem dependency_set_exact_c2 (vars : List (String × TrackedVariable))
    (k : String) (r : Int) :
    (k, r) ∈ computeDependencies vars ↔
      ∃ tv : TrackedVariable, (k, tv) ∈ vars ∧ tv.read = some r ∧
        (tv.write = none ∨ ∃ w, tv.write = some w ∧ w < r) := by
  rw [computeDependencies, List.mem_filterMap]
  constructor
  · rintro ⟨⟨k', tv⟩, hmem, hf⟩
    rcases tv with ⟨rd, wr⟩
    rcases rd with _ | r'
    · simp at hf
    · rcases wr with _ | w
      · simp only [Option.some.injEq, Prod.mk.injEq] at hf
        obtain ⟨hk, hr⟩ := hf
        subst hk; subst hr
        exact ⟨⟨some r', none⟩, hmem, rfl, Or.inl rfl⟩
      · by_cases hlt : w < r'
        · simp only [hlt, if_pos, Option.some.injEq, Prod.mk.injEq] at hf
          obtain ⟨hk, hr⟩ := hf
          subst hk; subst hr
          exact ⟨⟨some r', some w⟩, hmem, rfl, Or.inr ⟨w, rfl, hlt⟩⟩
        · simp [hlt] at hf
  · rintro ⟨tv, hmem, hread, hw⟩
    refine ⟨(k, tv), hmem, ?_⟩
    rcases tv with ⟨rd, wr⟩
    simp only at hread
    subst hread
    rcases hw with hw | ⟨w, hw, hlt⟩
    · simp only at hw
      subst hw
      rfl
    · simp only at hw
      subst hw
      simp [hlt]

/-- C6: the request sent by eval has track set to true exactly when the
options supply an onInvalidated callback or the options are not idempotent
(idempotent absent or false); otherwise track is false. -/
theorem track_flag_c6 (script : String) (options : ScriptEvalOptions) (mid : String) :
    (buildEvalRequest script options mid).track = true ↔
      (options.onInvalidated = true ∨ options.idempotent ≠ some true) := by
  rcases options with ⟨t, idem, inst, vs, inv⟩
  cases inv <;> rcases idem with _ | (_ | _) <;> simp [buildEvalRequest]

end Scripthost
